import Mathlib

/-!
Shallow embedding of the VM-manager web application
(`src/app.py`, `src/routes/api.py`, `src/models/{user,vm}.py`,
`src/utils/validators.py`) and proofs of the specification claims.

Conventions of the embedding:
* Python `None`-able string arguments are `Option String`; `(value or '')`
  becomes `Option.getD v ""`.
* `str.strip()` becomes `pyStrip`, using Python's Unicode whitespace set;
  `str.lower()` becomes `pyLower` (ASCII case folding, the only case-bearing
  characters occurring in the relevant data).
* JSON request bodies become records with `Option` fields: `none` means the
  key is absent (or JSON `null`, which `dict.get` makes indistinguishable
  from absent).  A field parsed with `int(...)` is `Option (Option Int)`:
  `some none` means the key is present but `int()` raises.
* The relational store is a record of three lists mirroring the tables
  `vm`, `users` and the association table `user_vm`; SQLAlchemy mutation
  plus commit becomes building a new store, and an error path that never
  commits returns the store unchanged (the session is rolled back at
  request end).
* HTTP responses become a status code (`Nat`) paired with the new store
  and, for reads, the optional payload.
-/

namespace VMManager

/-! ### Python string primitives -/

/-- Python's `str.isspace` / `\s` character set (the whitespace characters
`str.strip` removes). -/
def pyIsSpace (c : Char) : Bool :=
  c = ' ' || c = '\t' || c = '\n' || c = '\r' || c = '\x0b' || c = '\x0c' ||
  ('\x1c' ≤ c && c ≤ '\x1f') || c = '\x85' || c = '\xa0' ||
  c = '\u1680' || ('\u2000' ≤ c && c ≤ '\u200a') ||
  c = '\u2028' || c = '\u2029' || c = '\u202f' || c = '\u205f' || c = '\u3000'

/-- Python `str.strip()`: drop leading and trailing whitespace. -/
def pyStrip (s : String) : String :=
  String.mk (((s.toList.dropWhile pyIsSpace).reverse.dropWhile pyIsSpace).reverse)

/-- Python `str.lower()` restricted to ASCII case folding. -/
def pyLower (s : String) : String :=
  String.mk (s.toList.map Char.toLower)

/-! ### `src/utils/validators.py` -/

/-- Character class of `FULL_NAME_RE = r'^[A-Za-zА-Яа-яЁё\s\-_]{1,100}$'`:
Latin letters, the contiguous Cyrillic range `А..я` (U+0410..U+044F) plus
`Ё`/`ё`, whitespace, hyphen, underscore. -/
def fullNameChar (c : Char) : Bool :=
  ('A' ≤ c && c ≤ 'Z') || ('a' ≤ c && c ≤ 'z') ||
  ('А' ≤ c && c ≤ 'я') || c = 'Ё' || c = 'ё' ||
  pyIsSpace c || c = '-' || c = '_'

/-- Character class of `PASS_RE = r'^[A-Za-z0-9!@#$%&()_-]{6,18}$'`. -/
def passChar (c : Char) : Bool :=
  ('A' ≤ c && c ≤ 'Z') || ('a' ≤ c && c ≤ 'z') || ('0' ≤ c && c ≤ '9') ||
  c = '!' || c = '@' || c = '#' || c = '$' || c = '%' || c = '&' ||
  c = '(' || c = ')' || c = '_' || c = '-'

/-- Character class `[A-Za-z0-9._%+-]` of the email local part. -/
def emailLocalChar (c : Char) : Bool :=
  ('A' ≤ c && c ≤ 'Z') || ('a' ≤ c && c ≤ 'z') || ('0' ≤ c && c ≤ '9') ||
  c = '.' || c = '_' || c = '%' || c = '+' || c = '-'

/-- Character class `[A-Za-z0-9.-]` of the email domain part. -/
def emailDomainChar (c : Char) : Bool :=
  ('A' ≤ c && c ≤ 'Z') || ('a' ≤ c && c ≤ 'z') || ('0' ≤ c && c ≤ '9') ||
  c = '.' || c = '-'

/-- ASCII letter, for the `[A-Za-z]{2,}` top-level segment. -/
def asciiAlpha (c : Char) : Bool :=
  ('A' ≤ c && c ≤ 'Z') || ('a' ≤ c && c ≤ 'z')

/-- Split a character list at the first occurrence of `t`. -/
def splitFirst (t : Char) : List Char → Option (List Char × List Char)
  | [] => none
  | c :: cs =>
    if c = t then some ([], cs)
    else match splitFirst t cs with
      | none => none
      | some (l, r) => some (c :: l, r)

/-- Split a character list at the last occurrence of `t`. -/
def splitLast (t : Char) (cs : List Char) : Option (List Char × List Char) :=
  match splitFirst t cs.reverse with
  | none => none
  | some (r, l) => some (l.reverse, r.reverse)

/-- `EMAIL_RE.fullmatch` for `r'^[A-Za-z0-9._%+-]+@[A-Za-z0-9.-]+\.[A-Za-z]{2,}$'`.
The local-part class contains no `@`, so a match splits at the first `@`;
the top-level segment contains no `.`, so the domain splits at the last `.`. -/
def EMAIL_RE_fullmatch (s : String) : Bool :=
  match splitFirst '@' s.toList with
  | none => false
  | some (lp, rest) =>
    (!lp.isEmpty) && lp.all emailLocalChar &&
    (match splitLast '.' rest with
     | none => false
     | some (dom, tld) =>
       (!dom.isEmpty) && dom.all emailDomainChar &&
       decide (2 ≤ tld.length) && tld.all asciiAlpha)

/-- `validate_full_name` from `src/utils/validators.py`. -/
def validate_full_name (value : Option String) : Option String :=
  let v := pyStrip (value.getD "")
  if v = "" then some "ФИО обязательно"
  else if (decide (1 ≤ v.length) && decide (v.length ≤ 100)) && v.toList.all fullNameChar
  then none
  else some "ФИО: 1–100 символов; только буквы, пробелы, дефис и подчёркивание"

/-- `validate_password` from `src/utils/validators.py`. -/
def validate_password (value : Option String) : Option String :=
  let v := pyStrip (value.getD "")
  if (decide (6 ≤ v.length) && decide (v.length ≤ 18)) && v.toList.all passChar
  then none
  else some "Пароль: 6–18 символов; только латиница, цифры и спецсимволы"

/-- `validate_email` from `src/utils/validators.py`. -/
def validate_email (value : Option String) : Option String :=
  let v := pyLower (pyStrip (value.getD ""))
  if EMAIL_RE_fullmatch v then none
  else some "Некорректный формат email"

/-- Allowed full-name character as the spec words it (§4.1, §8): a Latin or
Cyrillic letter, whitespace, hyphen, or underscore.  "Cyrillic letter" is read
as the Russian alphabet `А..я` plus `Ё`/`ё`, the reading consistent with the
source comment. -/
def specAllowedFullNameChar (c : Char) : Bool :=
  ('A' ≤ c && c ≤ 'Z') || ('a' ≤ c && c ≤ 'z') ||
  ('А' ≤ c && c ≤ 'я') || c = 'Ё' || c = 'ё' ||
  pyIsSpace c || c = '-' || c = '_'

/-! ### Data model: `src/models/vm.py` and `src/models/user.py` -/

/-- Row of table `vm` (`src/models/vm.py`). -/
structure VM where
  id : Nat
  name : String
  ram_gb : Int
  cpu : Int
  is_deleted : Bool
deriving Repr, DecidableEq

/-- Row of table `users` (`src/models/user.py`). -/
structure Users where
  id : Nat
  email : String
  full_name : Option String
  password_hash : String
  is_admin : Bool
  is_blocked : Bool
deriving Repr, DecidableEq

/-- Modelled from the spec: the password hashing primitive
(`werkzeug.security.generate_password_hash`) is explicitly out of scope
(spec §1), so it is modelled as an abstract injective tagging of the
plaintext. -/
def generate_password_hash (p : String) : String :=
  "pbkdf2:" ++ p

/-- The relational store: tables `vm`, `users`, and the `user_vm`
association rows `(user_id, vm_id)`. -/
structure Store where
  vms : List VM
  users : List Users
  user_vm : List (Nat × Nat)
deriving Repr, DecidableEq

/-- `VM.query.get(vm_id)` — primary-key lookup. -/
def Store.findVM (s : Store) (vm_id : Nat) : Option VM :=
  s.vms.find? (fun v => v.id = vm_id)

/-- `Users.query.get(user_id)` — primary-key lookup. -/
def Store.findUser (s : Store) (user_id : Nat) : Option Users :=
  s.users.find? (fun w => w.id = user_id)

/-- `current_user.vms` — the VMs associated to a user through `user_vm`. -/
def Store.userVMs (s : Store) (uid : Nat) : List VM :=
  s.vms.filter (fun v => s.user_vm.contains (uid, v.id))

/-- Commit a mutation of one VM row: replace the row with the given id. -/
def Store.setVM (s : Store) (vm_id : Nat) (vm : VM) : Store :=
  { s with vms := s.vms.map (fun w => if w.id = vm_id then vm else w) }

/-- Commit a mutation of one user row: replace the row with the given id. -/
def Store.setUser (s : Store) (u : Users) : Store :=
  { s with users := s.users.map (fun w => if w.id = u.id then u else w) }

/-- `db` autoincrement primary key for a freshly inserted VM. -/
def freshVMId (s : Store) : Nat :=
  (s.vms.map VM.id).foldr max 0 + 1

/-! ### JSON API handlers: `src/routes/api.py`

Every handler is behind `login_required`, so the acting user `u` is given;
`u` is the row of `current_user` in the store. -/

/-- `api_get_vm` (`GET /vms/<vm_id>`): status and the returned payload. -/
def api_get_vm (s : Store) (u : Users) (vm_id : Nat) : Nat × Option VM :=
  match s.findVM vm_id with
  | none => (404, none)
  | some vm =>
    if ¬u.is_admin ∧ ¬s.user_vm.contains (u.id, vm.id) then (403, none)
    else (200, some vm)

/-- Body of `PATCH /vms/<vm_id>`; a `ram_gb`/`cpu` value of `some none`
means the key is present but `int(...)` raises. -/
structure VMPatch where
  name : Option String := none
  ram_gb : Option (Option Int) := none
  cpu : Option (Option Int) := none
deriving Repr, DecidableEq

/-- `api_update_vm` (`PATCH /vms/<vm_id>`): status and the resulting store
(unchanged on every non-200 path — a request that reports errors never
commits). -/
def api_update_vm (s : Store) (u : Users) (vm_id : Nat) (d : VMPatch) :
    Nat × Store :=
  match s.findVM vm_id with
  | none => (404, s)
  | some vm =>
    if ¬u.is_admin ∧ ¬s.user_vm.contains (u.id, vm.id) then (403, s)
    else if vm.is_deleted then (400, s)
    else
      let r1 : VM × List String :=
        match d.name with
        | none => (vm, [])
        | some raw =>
          let n := pyStrip raw
          if n = "" then (vm, ["Имя не может быть пустым"])
          else ({ vm with name := n }, [])
      let r2 : VM × List String :=
        match d.ram_gb with
        | none => r1
        | some none => (r1.1, r1.2 ++ ["ram_gb должен быть целым числом"])
        | some (some ram) =>
          if ¬(0 ≤ ram ∧ ram ≤ 32) then (r1.1, r1.2 ++ ["RAM от 0 до 32"])
          else ({ r1.1 with ram_gb := ram }, r1.2)
      let r3 : VM × List String :=
        match d.cpu with
        | none => r2
        | some none => (r2.1, r2.2 ++ ["cpu должен быть целым числом"])
        | some (some cpu) =>
          if ¬(1 ≤ cpu ∧ cpu ≤ 16) then (r2.1, r2.2 ++ ["CPU от 1 до 16"])
          else ({ r2.1 with cpu := cpu }, r2.2)
      if ¬r3.2.isEmpty then (400, s)
      else (200, s.setVM vm_id r3.1)

/-- `api_delete_vm` (`DELETE /vms/<vm_id>`): soft delete. -/
def api_delete_vm (s : Store) (u : Users) (vm_id : Nat) : Nat × Store :=
  match s.findVM vm_id with
  | none => (404, s)
  | some vm =>
    if ¬u.is_admin ∧ ¬s.user_vm.contains (u.id, vm.id) then (403, s)
    else if ¬vm.is_deleted then
      (204, s.setVM vm_id { vm with is_deleted := true })
    else (204, s)

/-- `api_list_vms` (`GET /vms`): the `items` list of the response. -/
def api_list_vms (s : Store) (u : Users) (include_deleted all_flag : Bool) :
    List VM :=
  let vms_all :=
    if u.is_admin && all_flag then
      (s.vms.mergeSort (fun a b => a.id ≤ b.id))
    else s.userVMs u.id
  if ¬(u.is_admin && all_flag) ∧ ¬include_deleted then
    vms_all.filter (fun vm => ¬vm.is_deleted)
  else vms_all

/-- Body of `POST /vms` (JSON create). -/
structure VMCreate where
  name : Option String := none
  ram_gb : Option (Option Int) := none
  cpu : Option (Option Int) := none
  owner_id : Option Nat := none
deriving Repr, DecidableEq

/-- `api_create_vm` (`POST /vms`). -/
def api_create_vm (s : Store) (u : Users) (d : VMCreate) : Nat × Store :=
  let name := pyStrip (d.name.getD "")
  match d.ram_gb, d.cpu with
  | some (some ram), some (some cpu) =>
    let errors :=
      (if name = "" then ["Имя обязательно"] else []) ++
      (if ¬(0 ≤ ram ∧ ram ≤ 32) then ["RAM от 0 до 32"] else []) ++
      (if ¬(1 ≤ cpu ∧ cpu ≤ 16) then ["CPU от 1 до 16"] else [])
    if ¬errors.isEmpty then (400, s)
    else
      let owner : Option Nat :=
        if u.is_admin ∧ d.owner_id.isSome then
          match d.owner_id with
          | some oid => if s.users.any (fun w => w.id = oid) then some oid else none
          | none => none
        else some u.id
      match owner with
      | none => (400, s)
      | some oid =>
        let vid := freshVMId s
        (201,
         { s with
            vms := s.vms ++ [{ id := vid, name := name, ram_gb := ram,
                               cpu := cpu, is_deleted := false }],
            user_vm := s.user_vm ++ [(oid, vid)] })
  | _, _ => (400, s)

/-! ### UI handlers: `src/app.py` -/

/-- `vm_create` (`POST /vms/create`, UI form): `true` iff a VM was created.
The form's `ram_gb`/`cpu` are `none` when `int(...)` raises. -/
def vm_create (s : Store) (u : Users) (name : String)
    (ram_gb cpu : Option Int) : Bool × Store :=
  match ram_gb, cpu with
  | some ram, some cpu =>
    let errors :=
      (if ¬(0 ≤ ram ∧ ram ≤ 32) then ["RAM от 0 до 32"] else []) ++
      (if ¬(1 ≤ cpu ∧ cpu ≤ 16) then ["CPU от 1 до 16"] else [])
    if errors.isEmpty then
      let vid := freshVMId s
      (true,
       { s with
          vms := s.vms ++ [{ id := vid, name := pyStrip name, ram_gb := ram,
                             cpu := cpu, is_deleted := false }],
          user_vm := s.user_vm ++ [(u.id, vid)] })
    else (false, s)
  | _, _ => (false, s)

/-- `vms_delete` (`POST /vms/delete`, UI bulk soft delete).  `ids` is the
parsed id list; the handler deduplicates it through a Python set, keeps the
ids owned by the caller, marks those rows deleted in one statement and one
commit, and flashes the affected count (`none` when nothing was selected or
owned). -/
def vms_delete (s : Store) (u : Users) (ids : List Nat) : Option Nat × Store :=
  let ids := ids.dedup
  if ids.isEmpty then (none, s)
  else
    let owned_vm_ids := (s.userVMs u.id).map VM.id
    let target_ids := ids.filter (fun i => owned_vm_ids.contains i)
    if target_ids.isEmpty then (none, s)
    else
      (some target_ids.length,
       { s with
          vms := s.vms.map (fun vm =>
            if target_ids.contains vm.id then { vm with is_deleted := true }
            else vm) })

/-- The `target_ids` intermediate of `vms_delete`: the deduplicated request
list restricted to the ids of the caller's owned VMs. -/
def bulkTargets (s : Store) (u : Users) (ids : List Nat) : List Nat :=
  ids.dedup.filter (fun i => ((s.userVMs u.id).map VM.id).contains i)

/-! ### Self-service profile: `api_update_me` (`PATCH /me`) -/

/-- Body of `PATCH /me`. -/
structure MePatch where
  email : Option String := none
  full_name : Option String := none
  new_password : Option String := none
  new_password2 : Option String := none
deriving Repr, DecidableEq

/-- `api_update_me` (`PATCH /me`): `uid` is `current_user.id`.  The admin
branch touches only the password; the regular branch handles email (trim,
lowercase, required, unique among other users) and full name.  An error
path returns 400 and never commits. -/
def api_update_me (s : Store) (uid : Nat) (d : MePatch) : Nat × Store :=
  match s.findUser uid with
  | none => (401, s)
  | some cu =>
    if cu.is_admin then
      let np := pyStrip (d.new_password.getD "")
      let np2 := pyStrip (d.new_password2.getD "")
      if np ≠ "" ∨ np2 ≠ "" then
        let errs :=
          (if np.length < 6 then ["Пароль должен быть не короче 6 символов"] else []) ++
          (if np ≠ np2 then ["Пароли не совпадают"] else [])
        if ¬errs.isEmpty then (400, s)
        else (200, s.setUser { cu with password_hash := generate_password_hash np })
      else (400, s)
    else
      let r1 : Users × List String :=
        match d.email with
        | none => (cu, [])
        | some e0 =>
          let e := pyLower (pyStrip e0)
          if e = "" then (cu, ["Email обязателен"])
          else if s.users.any (fun w => w.email = e ∧ w.id ≠ uid) then
            (cu, ["Пользователь с таким email уже существует"])
          else ({ cu with email := e }, [])
      let cu2 : Users :=
        match d.full_name with
        | none => r1.1
        | some fn =>
          let f := pyStrip fn
          { r1.1 with full_name := if f = "" then none else some f }
      if ¬r1.2.isEmpty then (400, s)
      else (200, s.setUser cu2)

/-! ### Concrete fixtures used by witnesses and counterexamples -/

/-- A regular (non-admin) user. -/
def alice : Users :=
  { id := 1, email := "alice@example.com", full_name := some "Alice",
    password_hash := "h1", is_admin := false, is_blocked := false }

/-- An administrator. -/
def rootAdmin : Users :=
  { id := 2, email := "admin@example.com", full_name := none,
    password_hash := "h2", is_admin := true, is_blocked := false }

/-- A second regular user. -/
def bob : Users :=
  { id := 3, email := "bob@example.com", full_name := none,
    password_hash := "h3", is_admin := false, is_blocked := false }

/-- A live VM owned by `alice`. -/
def vmLive : VM :=
  { id := 1, name := "vm-a", ram_gb := 4, cpu := 2, is_deleted := false }

/-- A soft-deleted VM owned by `alice`. -/
def vmGone : VM :=
  { id := 2, name := "vm-b", ram_gb := 8, cpu := 4, is_deleted := true }

/-- A live VM owned by `bob`. -/
def vmThird : VM :=
  { id := 3, name := "vm-c", ram_gb := 1, cpu := 1, is_deleted := false }

/-- The shared concrete store. -/
def baseStore : Store :=
  { vms := [vmLive, vmGone, vmThird],
    users := [alice, rootAdmin, bob],
    user_vm := [(1, 1), (1, 2), (3, 3)] }

/-! ### Helper lemmas -/

/-- A successful primary-key VM lookup returns a row with that id. -/
theorem findVM_id {s : Store} {vm_id : Nat} {vm : VM}
    (h : s.findVM vm_id = some vm) : vm.id = vm_id := by
  have := List.find?_some h
  simpa using this

/-- A successful primary-key user lookup returns a row with that id. -/
theorem findUser_id {s : Store} {uid : Nat} {u : Users}
    (h : s.findUser uid = some u) : u.id = uid := by
  have := List.find?_some h
  simpa using this

/-- With unique user ids, the row found by id is the only row with that id. -/
theorem find_unique_by_id {s : Store} {uid : Nat} {u : Users}
    (hnd : (s.users.map Users.id).Nodup)
    (hfind : s.findUser uid = some u) :
    ∀ w ∈ s.users, w.id = uid → w = u := by
  intro w hw hwid
  have hu : u ∈ s.users := List.mem_of_find?_eq_some hfind
  have huid : u.id = uid := findUser_id hfind
  exact List.inj_on_of_nodup_map hnd hw hu (by rw [hwid, huid])

/-- After `setVM`, looking up the replaced id yields the new row. -/
theorem findVM_setVM {s : Store} {vm_id : Nat} {vm : VM} (w : VM)
    (hw : w.id = vm_id) (hfind : s.findVM vm_id = some vm) :
    (s.setVM vm_id w).findVM vm_id = some w := by
  unfold Store.setVM Store.findVM
  rw [List.find?_map]
  have hpf : ((fun v : VM => decide (v.id = vm_id)) ∘
      (fun x : VM => if x.id = vm_id then w else x)) =
      (fun v : VM => decide (v.id = vm_id)) := by
    funext x
    by_cases hx : x.id = vm_id <;> simp [Function.comp, hx, hw]
  rw [hpf]
  unfold Store.findVM at hfind
  rw [hfind]
  have hid : vm.id = vm_id := by
    have := List.find?_some hfind
    simpa using this
  simp [hid]

/-! ### Claims -/

/-- Claim C9 (confirmed): for every input string (including null/empty,
modelled by `Option String`), `validate_full_name` returns no error iff the
trimmed string has length in `[1,100]` and every character is an allowed
letter/whitespace/hyphen/underscore.  The Lean function is total by
construction, matching "never throws on malformed input". -/
theorem C9_full_name_validator (v : Option String) :
    validate_full_name v = none ↔
      (1 ≤ (pyStrip (v.getD "")).length ∧ (pyStrip (v.getD "")).length ≤ 100 ∧
        ∀ c ∈ (pyStrip (v.getD "")).toList, specAllowedFullNameChar c = true) := by
  have hchar : specAllowedFullNameChar = fullNameChar := rfl
  rw [hchar]
  unfold validate_full_name
  by_cases h : pyStrip (v.getD "") = ""
  · simp [h]
  · simp [h, List.all_eq_true, and_assoc]

/-- Claim C2 (confirmed): for a non-admin actor, `GET /vms/<id>` and
`PATCH /vms/<id>` return 404 when the id does not resolve, and 403 with no
payload and no state change when it resolves to a VM outside the actor's
owned-record set — the existence check precedes the ownership check. -/
theorem C2_missing_before_forbidden (s : Store) (u : Users) (vmid : Nat)
    (d : VMPatch) (hna : u.is_admin = false) :
    (s.findVM vmid = none →
      api_get_vm s u vmid = (404, none) ∧ api_update_vm s u vmid d = (404, s)) ∧
    (∀ vm, s.findVM vmid = some vm → s.user_vm.contains (u.id, vmid) = false →
      api_get_vm s u vmid = (403, none) ∧ api_update_vm s u vmid d = (403, s)) := by
  constructor
  · intro h
    simp [api_get_vm, api_update_vm, h]
  · intro vm h hown
    have hid : vm.id = vmid := findVM_id h
    have hmem : (u.id, vmid) ∉ s.user_vm := by simpa using hown
    constructor
    · simp [api_get_vm, h, hna, hid, hmem]
    · simp [api_update_vm, h, hna, hid, hmem]

/-- Witness for C2 at the concrete store: id 99 does not exist (404 for read
and update); id 3 belongs to `bob`, so `alice` gets 403 and no data. -/
theorem C2_missing_before_forbidden_witness :
    api_get_vm baseStore alice 99 = (404, none) ∧
    api_update_vm baseStore alice 99 {} = (404, baseStore) ∧
    api_get_vm baseStore alice 3 = (403, none) ∧
    api_update_vm baseStore alice 3 {} = (403, baseStore) := by
  have h99 := C2_missing_before_forbidden baseStore alice 99 {} rfl
  have h3 := C2_missing_before_forbidden baseStore alice 3 {} rfl
  have ha := h99.1 (by decide)
  have hb := h3.2 vmThird (by decide) (by decide)
  exact ⟨ha.1, ha.2, hb.1, hb.2⟩

/-- Claim C1 (counterexample): soft-deleting an already soft-deleted VM via
`DELETE /vms/<id>` is NOT rejected with 400: for the owner `alice` and the
soft-deleted `vmGone` (id 2), the handler returns 204 and leaves the store
unchanged. -/
theorem C1_counterexample :
    baseStore.findVM 2 = some vmGone ∧ vmGone.is_deleted = true ∧
    baseStore.user_vm.contains (alice.id, 2) = true ∧
    alice.is_admin = false ∧
    api_delete_vm baseStore alice 2 = (204, baseStore) ∧
    (api_delete_vm baseStore alice 2).1 ≠ 400 := by
  decide

/-- Claim C1 (amended): for every authenticated actor authorized on the VM
(admin or owner) and every VM whose `is_deleted` flag is true, an update
attempt (`PATCH /vms/<id>`) is rejected with 400 and the store is unchanged,
while a further soft-delete attempt (`DELETE /vms/<id>`) succeeds with 204 as
a no-op, also leaving the store unchanged. -/
theorem C1_deleted_vm_immutable (s : Store) (u : Users) (vmid : Nat)
    (d : VMPatch) (vm : VM)
    (hfind : s.findVM vmid = some vm)
    (hdel : vm.is_deleted = true)
    (hauth : u.is_admin = true ∨ s.user_vm.contains (u.id, vmid) = true) :
    api_update_vm s u vmid d = (400, s) ∧ api_delete_vm s u vmid = (204, s) := by
  have hid : vm.id = vmid := findVM_id hfind
  rcases hauth with ha | ho
  · constructor
    · simp [api_update_vm, hfind, hdel, ha]
    · simp [api_delete_vm, hfind, hdel, ha]
  · have hmem : (u.id, vmid) ∈ s.user_vm := by simpa using ho
    constructor
    · simp [api_update_vm, hfind, hdel, hid, hmem]
    · simp [api_delete_vm, hfind, hdel, hid, hmem]

/-- Witness for the amended C1: owner `alice` on the soft-deleted `vmGone`,
and the admin on the same VM. -/
theorem C1_deleted_vm_immutable_witness :
    (api_update_vm baseStore alice 2 {} = (400, baseStore) ∧
      api_delete_vm baseStore alice 2 = (204, baseStore)) ∧
    (api_update_vm baseStore rootAdmin 2 {} = (400, baseStore) ∧
      api_delete_vm baseStore rootAdmin 2 = (204, baseStore)) :=
  ⟨C1_deleted_vm_immutable baseStore alice 2 {} vmGone (by decide) (by decide)
      (Or.inr (by decide)),
   C1_deleted_vm_immutable baseStore rootAdmin 2 {} vmGone (by decide) (by decide)
      (Or.inl (by decide))⟩

/-- Claim C10 (confirmed): `DELETE /vms/<id>` is idempotent for an authorized
actor.  On an already soft-deleted VM it returns 204 and changes nothing; in
general it returns 204, never touches users or the ownership relation, and a
second delete of the same id returns 204 and leaves the once-deleted state
fixed. -/
theorem C10_delete_idempotent (s : Store) (u : Users) (vmid : Nat) (vm : VM)
    (hfind : s.findVM vmid = some vm)
    (hauth : u.is_admin = true ∨ s.user_vm.contains (u.id, vmid) = true) :
    (vm.is_deleted = true → api_delete_vm s u vmid = (204, s)) ∧
    (api_delete_vm s u vmid).1 = 204 ∧
    (api_delete_vm s u vmid).2.users = s.users ∧
    (api_delete_vm s u vmid).2.user_vm = s.user_vm ∧
    api_delete_vm (api_delete_vm s u vmid).2 u vmid =
      (204, (api_delete_vm s u vmid).2) := by
  have hid : vm.id = vmid := findVM_id hfind
  have hok : u.is_admin = false → (u.id, vm.id) ∈ s.user_vm := by
    intro hfa
    rcases hauth with ha | ho
    · rw [hfa] at ha; cases ha
    · rw [hid]; simpa using ho
  by_cases hdel : vm.is_deleted
  · have h1 : api_delete_vm s u vmid = (204, s) := by
      simp [api_delete_vm, hfind, hdel]
      exact hok
    refine ⟨fun _ => h1, by rw [h1], by rw [h1], by rw [h1], ?_⟩
    rw [h1]
    exact h1
  · have h1 : api_delete_vm s u vmid =
        (204, s.setVM vmid { vm with is_deleted := true }) := by
      simp [api_delete_vm, hfind, hdel]
      exact hok
    have hfind2 : (s.setVM vmid { vm with is_deleted := true }).findVM vmid =
        some { vm with is_deleted := true } :=
      findVM_setVM { vm with is_deleted := true } hid hfind
    have h2 : api_delete_vm (s.setVM vmid { vm with is_deleted := true }) u vmid =
        (204, s.setVM vmid { vm with is_deleted := true }) := by
      simp [api_delete_vm, hfind2]
      exact hok
    refine ⟨fun hc => absurd hc hdel, by rw [h1], by rw [h1]; rfl, by rw [h1]; rfl, ?_⟩
    rw [h1]
    exact h2

/-- Witness for C10: `alice` deletes her live VM (id 1) and her already
soft-deleted VM (id 2). -/
theorem C10_delete_idempotent_witness :
    api_delete_vm baseStore alice 2 = (204, baseStore) ∧
    (api_delete_vm baseStore alice 1).1 = 204 ∧
    api_delete_vm (api_delete_vm baseStore alice 1).2 alice 1 =
      (204, (api_delete_vm baseStore alice 1).2) := by
  have h2 := C10_delete_idempotent baseStore alice 2 vmGone (by decide)
    (Or.inr (by decide))
  have h1 := C10_delete_idempotent baseStore alice 1 vmLive (by decide)
    (Or.inr (by decide))
  exact ⟨h2.1 (by decide), h1.2.1, h1.2.2.2.2⟩

/-- Claim C3 (confirmed): `GET /vms` returns, for an actor who is not an
admin with the `all` flag, exactly the actor's owned VMs with soft-deleted
ones excluded unless `include_deleted` is set; for an admin with `all` set it
returns every VM regardless of owner and deletion, and `include_deleted` has
no effect in that mode. -/
theorem C3_vm_listing (s : Store) (u : Users) (inc all_flag : Bool) (vm : VM) :
    ((u.is_admin && all_flag) = true →
      ((vm ∈ api_list_vms s u inc all_flag ↔ vm ∈ s.vms) ∧
       api_list_vms s u inc all_flag = api_list_vms s u (!inc) all_flag)) ∧
    ((u.is_admin && all_flag) = false →
      (vm ∈ api_list_vms s u inc all_flag ↔
        vm ∈ s.vms ∧ s.user_vm.contains (u.id, vm.id) = true ∧
          (inc || !vm.is_deleted) = true)) := by
  constructor
  · intro h
    constructor
    · simp [api_list_vms, h, List.mem_mergeSort]
    · simp [api_list_vms, h]
  · intro h
    cases hinc : inc
    · simp only [api_list_vms, h, Store.userVMs, List.mem_filter]
      simp
      tauto
    · simp [api_list_vms, h, Store.userVMs, List.mem_filter, and_assoc]

/-- Witness for C3: the admin with `all=true` sees every VM including the
soft-deleted one owned by `alice`; `alice` by default sees only her live VM,
and sees the deleted one again with `include_deleted`. -/
theorem C3_vm_listing_witness :
    (vmGone ∈ api_list_vms baseStore rootAdmin false true) ∧
    api_list_vms baseStore rootAdmin false true =
      api_list_vms baseStore rootAdmin true true ∧
    ¬(vmGone ∈ api_list_vms baseStore alice false false) ∧
    (vmGone ∈ api_list_vms baseStore alice true false) ∧
    ¬(vmThird ∈ api_list_vms baseStore alice true false) := by
  have hadm := (C3_vm_listing baseStore rootAdmin false true vmGone).1 rfl
  have ha1 := (C3_vm_listing baseStore alice false false vmGone).2 rfl
  have ha2 := (C3_vm_listing baseStore alice true false vmGone).2 rfl
  have ha3 := (C3_vm_listing baseStore alice true false vmThird).2 rfl
  refine ⟨hadm.1.mpr (by decide), ?_, ?_, ha2.mpr (by decide), ?_⟩
  · have := hadm.2
    simpa using this
  · intro hmem
    have := ha1.mp hmem
    revert this
    decide
  · intro hmem
    have := ha3.mp hmem
    revert this
    decide

/-- Claim C4 (confirmed): the bulk soft delete `POST /vms/delete` marks
exactly the requested ids that the caller owns: the resulting `vm` table is
the pointwise marking of rows whose id is in `bulkTargets` (the deduplicated
request ∩ owned ids), the reported count is the size of that set, users and
ownership rows are untouched, and when the intersection is empty nothing at
all changes.  Atomicity holds by construction: the handler produces either
the fully-marked store or the unchanged store. -/
theorem vms_delete_eq (s : Store) (u : Users) (ids : List Nat) :
    vms_delete s u ids =
      if bulkTargets s u ids = [] then (none, s)
      else
        (some (bulkTargets s u ids).length,
         { s with vms := s.vms.map (fun vm =>
            if (bulkTargets s u ids).contains vm.id then { vm with is_deleted := true }
            else vm) }) := by
  unfold vms_delete bulkTargets
  simp only [List.isEmpty_iff]
  by_cases h1 : ids.dedup = []
  · simp [h1]
  · simp [h1]

/-- Claim C4 (confirmed): the bulk soft delete `POST /vms/delete` marks
exactly the requested ids that the caller owns: the resulting `vm` table is
the pointwise marking of the rows whose id is in `bulkTargets` (the
deduplicated request list ∩ the caller's owned ids, the last two conjuncts),
the reported count is the size of that set, users and ownership rows are
untouched, and when the intersection is empty nothing changes at all.
Atomicity holds by construction of the handler: it commits either the
fully-marked store or the unchanged store. -/
theorem C4_bulk_delete (s : Store) (u : Users) (ids : List Nat) :
    ((vms_delete s u ids).2.vms =
      s.vms.map (fun vm =>
        if (bulkTargets s u ids).contains vm.id then { vm with is_deleted := true }
        else vm)) ∧
    (bulkTargets s u ids ≠ [] →
      (vms_delete s u ids).1 = some (bulkTargets s u ids).length) ∧
    (bulkTargets s u ids = [] → vms_delete s u ids = (none, s)) ∧
    (vms_delete s u ids).2.users = s.users ∧
    (vms_delete s u ids).2.user_vm = s.user_vm ∧
    (∀ i ∈ bulkTargets s u ids, i ∈ ids ∧ i ∈ (s.userVMs u.id).map VM.id) ∧
    (∀ i, i ∈ ids → i ∈ (s.userVMs u.id).map VM.id → i ∈ bulkTargets s u ids) := by
  have heq := vms_delete_eq s u ids
  have hmem : ∀ i, i ∈ bulkTargets s u ids ↔
      (i ∈ ids ∧ i ∈ (s.userVMs u.id).map VM.id) := by
    intro i
    simp [bulkTargets, List.mem_filter, List.mem_dedup]
  by_cases htgt : bulkTargets s u ids = []
  · rw [if_pos htgt] at heq
    refine ⟨?_, fun hc => absurd htgt hc, fun _ => heq, ?_, ?_,
      fun i hi => (hmem i).mp hi, fun i h1 h2 => (hmem i).mpr ⟨h1, h2⟩⟩
    · rw [heq, htgt]
      simp
    · rw [heq]
    · rw [heq]
  · rw [if_neg htgt] at heq
    refine ⟨?_, fun _ => ?_, fun hc => absurd hc htgt, ?_, ?_,
      fun i hi => (hmem i).mp hi, fun i h1 h2 => (hmem i).mpr ⟨h1, h2⟩⟩
    · rw [heq]
    · rw [heq]
    · rw [heq]
    · rw [heq]

/-- Witness for C4: `alice` bulk-deletes `[1, 2, 3, 99]`; she owns only 1
and 2, so the count is 2, her rows are marked, `bob`'s VM 3 is untouched and
the ownership table is unchanged. -/
theorem C4_bulk_delete_witness :
    (vms_delete baseStore alice [1, 2, 3, 99]).1 = some 2 ∧
    (vms_delete baseStore alice [1, 2, 3, 99]).2.vms =
      [{ vmLive with is_deleted := true }, vmGone, vmThird] ∧
    (vms_delete baseStore alice [1, 2, 3, 99]).2.user_vm = baseStore.user_vm := by
  have h := C4_bulk_delete baseStore alice [1, 2, 3, 99]
  refine ⟨?_, ?_, h.2.2.2.2.1⟩
  · have := h.2.1 (by decide)
    rw [this]
    decide
  · rw [h.1]
    decide

/-- Claim C5 (confirmed): a VM-creation request (JSON `POST /vms` or the UI
form `POST /vms/create`) whose parsed `ram_gb` is outside `[0,32]` or whose
parsed `cpu` is outside `[1,16]` always fails with a validation outcome and
leaves the store — VM rows and ownership rows alike — unchanged. -/
theorem C5_create_range_rejected (s : Store) (u : Users) (d : VMCreate)
    (name : String) (r c : Int)
    (hr : d.ram_gb = some (some r)) (hc : d.cpu = some (some c))
    (hout : ¬(0 ≤ r ∧ r ≤ 32) ∨ ¬(1 ≤ c ∧ c ≤ 16)) :
    api_create_vm s u d = (400, s) ∧ vm_create s u name (some r) (some c) = (false, s) := by
  rcases hout with h | h
  · constructor
    · simp [api_create_vm, hr, hc, h]
    · simp [vm_create, h]
  · constructor
    · simp [api_create_vm, hr, hc, h]
    · simp [vm_create, h]

/-- Witness for C5: `ram_gb = 33` and `cpu = 0` are both rejected with no
record created, through the API and the UI form alike. -/
theorem C5_create_range_rejected_witness :
    api_create_vm baseStore alice
      { name := some "vm-x", ram_gb := some (some 33), cpu := some (some 2) } =
      (400, baseStore) ∧
    vm_create baseStore alice "vm-x" (some 33) (some 2) = (false, baseStore) ∧
    api_create_vm baseStore alice
      { name := some "vm-x", ram_gb := some (some 4), cpu := some (some 0) } =
      (400, baseStore) ∧
    vm_create baseStore alice "vm-x" (some 4) (some 0) = (false, baseStore) := by
  have h33 := C5_create_range_rejected baseStore alice
    { name := some "vm-x", ram_gb := some (some 33), cpu := some (some 2) }
    "vm-x" 33 2 rfl rfl (Or.inl (by omega))
  have h0 := C5_create_range_rejected baseStore alice
    { name := some "vm-x", ram_gb := some (some 4), cpu := some (some 0) }
    "vm-x" 4 0 rfl rfl (Or.inr (by omega))
  exact ⟨h33.1, h33.2, h0.1, h0.2⟩

/-- Claim C6 (counterexample): the claim says an admin's `PATCH /me` password
change succeeds exactly when the confirmation matches AND the password rule
(trimmed length 6–18, restricted character set) holds.  But for the matching
19-character password below the rule fails while the handler still answers
200 and replaces the credential. -/
theorem C6_counterexample :
    (validate_password (some "aaaaaaaaaaaaaaaaaaa")).isSome = true ∧
    api_update_me baseStore 2
        { new_password := some "aaaaaaaaaaaaaaaaaaa",
          new_password2 := some "aaaaaaaaaaaaaaaaaaa" } =
      (200, baseStore.setUser
        { rootAdmin with password_hash := generate_password_hash "aaaaaaaaaaaaaaaaaaa" }) := by
  constructor
  · decide
  · decide

/-- Claim C6 (amended): for an admin calling `PATCH /me` with password
fields, the call succeeds and replaces the credential exactly when the two
trimmed values match and the trimmed `new_password` has length at least 6 —
the 18-character cap and the character-class restriction of the password rule
are not enforced here.  A mismatched confirmation (or both fields blank)
fails with 400 and leaves the store, hence the stored credential, unchanged. -/
theorem C6_admin_password_change (s : Store) (uid : Nat) (d : MePatch)
    (u : Users) (hfind : s.findUser uid = some u) (ha : u.is_admin = true) :
    ((pyStrip (d.new_password.getD "") = "" ∧ pyStrip (d.new_password2.getD "") = "") →
      api_update_me s uid d = (400, s)) ∧
    (¬(pyStrip (d.new_password.getD "") = "" ∧ pyStrip (d.new_password2.getD "") = "") →
      ((6 ≤ (pyStrip (d.new_password.getD "")).length ∧
          pyStrip (d.new_password.getD "") = pyStrip (d.new_password2.getD "") →
        api_update_me s uid d =
          (200,
           s.setUser
             { u with
                password_hash := generate_password_hash (pyStrip (d.new_password.getD "")) })) ∧
       (¬(6 ≤ (pyStrip (d.new_password.getD "")).length ∧
          pyStrip (d.new_password.getD "") = pyStrip (d.new_password2.getD "")) →
        api_update_me s uid d = (400, s)))) := by
  constructor
  · intro hblank
    simp [api_update_me, hfind, ha, hblank.1, hblank.2]
  · intro hsome
    have hne : pyStrip (d.new_password.getD "") ≠ "" ∨
        pyStrip (d.new_password2.getD "") ≠ "" := by
      by_contra hno
      push_neg at hno
      exact hsome ⟨hno.1, hno.2⟩
    constructor
    · intro hgood
      have hlen : ¬(pyStrip (d.new_password.getD "")).length < 6 := by omega
      have hlen2 : ¬(pyStrip (d.new_password2.getD "")).length < 6 := by
        rw [← hgood.2]; omega
      have hne0 : pyStrip (d.new_password2.getD "") ≠ "" := by
        intro h0
        rw [h0] at hlen2
        exact hlen2 (by simp)
      simp [api_update_me, hfind, ha, hne, hlen, hlen2, hne0, hgood.2]
    · intro hbad
      by_cases hlen : (pyStrip (d.new_password.getD "")).length < 6
      · simp [api_update_me, hfind, ha, hne, hlen]
      · have hne2 : pyStrip (d.new_password.getD "") ≠ pyStrip (d.new_password2.getD "") := by
          intro hcontra
          exact hbad ⟨by omega, hcontra⟩
        simp [api_update_me, hfind, ha, hne, hlen, hne2]

/-- Witness for the amended C6: the admin changes the password with a valid
pair, and fails with a mismatched confirmation, the store unchanged. -/
theorem C6_admin_password_change_witness :
    api_update_me baseStore 2
        { new_password := some "abcdef", new_password2 := some "abcdef" } =
      (200, baseStore.setUser
        { rootAdmin with password_hash := generate_password_hash "abcdef" }) ∧
    api_update_me baseStore 2
        { new_password := some "abcdef", new_password2 := some "abcdeg" } =
      (400, baseStore) ∧
    api_update_me baseStore 2 {} = (400, baseStore) := by
  have hok := C6_admin_password_change baseStore 2
    { new_password := some "abcdef", new_password2 := some "abcdef" }
    rootAdmin (by decide) rfl
  have hbad := C6_admin_password_change baseStore 2
    { new_password := some "abcdef", new_password2 := some "abcdeg" }
    rootAdmin (by decide) rfl
  have hblank := C6_admin_password_change baseStore 2 {} rootAdmin (by decide) rfl
  refine ⟨?_, ?_, hblank.1 (by decide)⟩
  · have := (hok.2 (by decide)).1 (by decide)
    simpa using this
  · exact (hbad.2 (by decide)).2 (by decide)

/-- The admin branch of `PATCH /me` either fails with 400 and no change, or
succeeds replacing only the password hash of the acting admin. -/
theorem api_update_me_admin_shape (s : Store) (uid : Nat) (d : MePatch)
    (u : Users) (hfind : s.findUser uid = some u) (ha : u.is_admin = true) :
    api_update_me s uid d = (400, s) ∨
    ∃ p, api_update_me s uid d = (200, s.setUser { u with password_hash := p }) := by
  simp only [api_update_me, hfind, ha, if_true]
  repeat' split
  all_goals first
    | (left; rfl)
    | (right; exact ⟨_, rfl⟩)

/-- `setUser` with a row differing only in the password hash preserves every
user's id, email and display name (given unique user ids). -/
theorem setUser_preserves_triples (s : Store) (uid : Nat) (u : Users) (p : String)
    (hnd : (s.users.map Users.id).Nodup)
    (hfind : s.findUser uid = some u) :
    (s.setUser { u with password_hash := p }).users.map
        (fun w => (w.id, w.email, w.full_name)) =
      s.users.map (fun w => (w.id, w.email, w.full_name)) := by
  unfold Store.setUser
  dsimp only
  rw [List.map_map]
  apply List.map_congr_left
  intro w hw
  by_cases hid : w.id = u.id
  · have hwu : w = u :=
      find_unique_by_id hnd hfind w hw (by rw [hid, findUser_id hfind])
    simp [Function.comp, hid, hwu]
  · simp [Function.comp, hid]

/-- Claim C7 (confirmed): for an admin caller, `PATCH /me` gives the same
response and state whether or not `email`/`full_name` are present in the
body (they are silently ignored, never a reason to fail), and the stored
id/email/display-name of every user — in particular the actor — are
unchanged, as are VMs and ownership. -/
theorem C7_admin_me_ignores_email_name (s : Store) (uid : Nat) (d : MePatch)
    (u : Users) (hfind : s.findUser uid = some u) (ha : u.is_admin = true)
    (hnd : (s.users.map Users.id).Nodup) :
    api_update_me s uid d =
      api_update_me s uid { d with email := none, full_name := none } ∧
    (api_update_me s uid d).2.users.map (fun w => (w.id, w.email, w.full_name)) =
      s.users.map (fun w => (w.id, w.email, w.full_name)) ∧
    (api_update_me s uid d).2.vms = s.vms ∧
    (api_update_me s uid d).2.user_vm = s.user_vm := by
  refine ⟨by simp [api_update_me, hfind, ha], ?_⟩
  rcases api_update_me_admin_shape s uid d u hfind ha with h | ⟨p, h⟩
  · rw [h]
    exact ⟨rfl, rfl, rfl⟩
  · rw [h]
    exact ⟨setUser_preserves_triples s uid u p hnd hfind, rfl, rfl⟩

/-- Witness for C7: the admin sends `email`/`full_name` together with a
password change; the reply equals the one without them and emails/names are
untouched. -/
theorem C7_admin_me_ignores_email_name_witness :
    api_update_me baseStore 2
        { email := some "zzz@example.com", full_name := some "Zed",
          new_password := some "abcdef", new_password2 := some "abcdef" } =
      api_update_me baseStore 2
        { new_password := some "abcdef", new_password2 := some "abcdef" } ∧
    (api_update_me baseStore 2
        { email := some "zzz@example.com", full_name := some "Zed",
          new_password := some "abcdef", new_password2 := some "abcdef" }).2.users.map
        (fun w => (w.id, w.email, w.full_name)) =
      baseStore.users.map (fun w => (w.id, w.email, w.full_name)) := by
  have h := C7_admin_me_ignores_email_name baseStore 2
    { email := some "zzz@example.com", full_name := some "Zed",
      new_password := some "abcdef", new_password2 := some "abcdef" }
    rootAdmin (by decide) rfl (by decide)
  exact ⟨h.1, h.2.1⟩

/-- Claim C8 (counterexample): the claim says a non-admin's new email is
accepted only if it passes the email validator; but `"abc"` fails the
validator and `PATCH /me` still accepts it with 200 and stores it. -/
theorem C8_counterexample :
    (validate_email (some "abc")).isSome = true ∧
    api_update_me baseStore 1 { email := some "abc" } =
      (200, baseStore.setUser { alice with email := "abc" }) := by
  constructor
  · decide
  · decide

/-- Claim C8 (amended): for a non-admin actor changing their email through
`PATCH /me`, the new value is trimmed and lowercased and accepted exactly
when it is non-empty and no other stored user has that email; an empty or
duplicate value is rejected with 400 and the store is unchanged.  No email
shape validation is applied on this path (`validate_email` is not called). -/
theorem C8_email_change (s : Store) (uid : Nat) (d : MePatch) (u : Users)
    (e0 : String)
    (hfind : s.findUser uid = some u) (hna : u.is_admin = false)
    (he : d.email = some e0) (hfn : d.full_name = none) :
    (pyLower (pyStrip e0) = "" → api_update_me s uid d = (400, s)) ∧
    (pyLower (pyStrip e0) ≠ "" →
      (s.users.any (fun w => w.email = pyLower (pyStrip e0) ∧ w.id ≠ uid) = true →
        api_update_me s uid d = (400, s)) ∧
      (s.users.any (fun w => w.email = pyLower (pyStrip e0) ∧ w.id ≠ uid) = false →
        api_update_me s uid d =
          (200, s.setUser { u with email := pyLower (pyStrip e0) }))) := by
  refine ⟨?_, fun hne => ⟨?_, ?_⟩⟩
  · intro h0
    simp [api_update_me, hfind, hna, he, hfn, h0]
  · intro hdup
    have hdup2 : ∃ x ∈ s.users, x.email = pyLower (pyStrip e0) ∧ ¬x.id = uid := by
      simpa using hdup
    simp [api_update_me, hfind, hna, he, hfn, hne, hdup2]
  · intro hfree
    have hfree2 : ¬∃ x ∈ s.users, x.email = pyLower (pyStrip e0) ∧ ¬x.id = uid := by
      simpa using hfree
    simp [api_update_me, hfind, hna, he, hfn, hne, hfree2]

/-- Witness for the amended C8: `alice` takes a fresh (non-validator-shaped)
email successfully, is refused `bob`'s email with 400, and a blank email is
refused with 400, the store unchanged in both failures. -/
theorem C8_email_change_witness :
    api_update_me baseStore 1 { email := some " NewMail " } =
      (200, baseStore.setUser { alice with email := "newmail" }) ∧
    api_update_me baseStore 1 { email := some "bob@example.com" } = (400, baseStore) ∧
    api_update_me baseStore 1 { email := some "   " } = (400, baseStore) := by
  have hok := C8_email_change baseStore 1 { email := some " NewMail " }
    alice " NewMail " (by decide) rfl rfl rfl
  have hdup := C8_email_change baseStore 1 { email := some "bob@example.com" }
    alice "bob@example.com" (by decide) rfl rfl rfl
  have hblank := C8_email_change baseStore 1 { email := some "   " }
    alice "   " (by decide) rfl rfl rfl
  refine ⟨?_, ?_, hblank.1 (by decide)⟩
  · have := (hok.2 (by decide)).2 (by decide)
    simpa using this
  · exact (hdup.2 (by decide)).1 (by decide)

end VMManager
